import Mathlib

/-
Verification of the multi-provider LLM fallback pipeline of the
sectors news scraper.

Shallow embedding of the three source files:
  preprocessing_articles/extract_classifier.py    (NewsClassifier)
  preprocessing_articles/extract_score_news.py    (ArticleScorer)
  preprocessing_articles/extract_summary_news.py  (summarize_llama / summarize_news)

The model backends themselves (LLMCollection, invoke_llm, invoke_llm_async
in llm_models/get_models.py) are outside the verified sources; each backend
attempt is abstracted as an outcome value (parsed JSON result, a null
signal from the wrapper, or a raised error), exactly the interface the
loop bodies in the three files branch on.
-/

namespace SectorsNews

/-- JSON-like values: the possible outputs of langchain JsonOutputParser,
i.e. the Python values json.loads can produce (floats are not needed by
any verified property and are left out of the model). -/
inductive JValue where
  | jnull
  | jbool (b : Bool)
  | jnum (n : Int)
  | jstr (s : String)
  | jarr (items : List JValue)
  | jobj (fields : List (String × JValue))
deriving Repr, BEq

/-- Python exception classes distinguished by the except clauses of the
three loop bodies.  rateLimit carries whether the message bears the
daily-quota signature (contains "tokens per day" or "tpd"). -/
inductive PyErr where
  | rateLimit (daily : Bool)
  | jsonDecode
  | attributeErr
  | typeError
  | keyError
  | otherErr
deriving Repr, DecidableEq

/-- Modelled from the spec: the model backend interface (invoke_llm,
invoke_llm_async and the langchain chain.invoke call live in
llm_models/get_models.py, outside the verified sources).  A backend
attempt either returns a parsed structured result, signals a permanent
API failure by returning None (the wrapper contract the loop bodies
check with "if result is None"), or raises an exception. -/
inductive LLMOutcome where
  | success (v : JValue)
  | nullResult
  | raiseErr (e : PyErr)
deriving Repr

/-- Python dict.get(key, default) on a dict value. -/
def pyGet (fields : List (String × JValue)) (key : String) (dflt : JValue) : JValue :=
  match fields.find? (fun p => p.1 == key) with
  | some p => p.2
  | none => dflt

/-- Python dict[key] indexing: KeyError when missing, TypeError when the
value is not subscriptable the way a dict is. -/
def pyIndex (v : JValue) (key : String) : Except PyErr JValue :=
  match v with
  | .jobj fields =>
    match fields.find? (fun p => p.1 == key) with
    | some p => .ok p.2
    | none => .error .keyError
  | _ => .error .typeError

/-- Python iteration over a value: lists yield elements, strings yield
one-character strings, dicts yield their keys, other values raise
TypeError. -/
def pyIterate : JValue → Except PyErr (List JValue)
  | .jarr items => .ok items
  | .jstr s => .ok (s.data.map (fun c => .jstr (String.mk [c])))
  | .jobj fields => .ok (fields.map (fun p => .jstr p.1))
  | _ => .error .typeError

/-- Python truthiness of a JSON value (used by "if not response.get(..)"). -/
def pyTruthy : JValue → Bool
  | .jnull => false
  | .jbool b => b
  | .jnum n => n != 0
  | .jstr s => s != ""
  | .jarr items => !items.isEmpty
  | .jobj fields => !fields.isEmpty

/-- Python membership test "tag in tags" where tags is a list of str:
equality of a JSON value with a Python string. -/
def tagEqString (v : JValue) (s : String) : Bool :=
  match v with
  | .jstr t => t == s
  | _ => false

/-- The tag filter of extract_classifier.py lines 255-262: walk the raw
list keeping tags that are in the valid vocabulary and not yet seen
(seen accumulates the kept tags, giving first-seen-order dedup). -/
def filterTagsAux (validTags : List String) (seen : List String) : List JValue → List String
  | [] => []
  | t :: rest =>
    match t with
    | .jstr s =>
      if validTags.contains s && !(seen.contains s) then
        s :: filterTagsAux validTags (s :: seen) rest
      else
        filterTagsAux validTags seen rest
    | _ => filterTagsAux validTags seen rest

/-- Entry point of the tag filter with an empty seen set. -/
def filterTags (validTags : List String) (raw : List JValue) : List String :=
  filterTagsAux validTags [] raw

/-- The five classification categories dispatched on by
NewsClassifier._classify_openai_async. -/
inductive Category where
  | tags
  | tickers
  | subsectors
  | sentiment
  | dimension
deriving Repr, DecidableEq

/-- Per-category result extraction performed on a successful parse,
extract_classifier.py lines 253-284.  Every branch calls result.get,
which raises AttributeError when the parsed result is not a dict
(including the dimension fallback branch, whose synthesized 8-key
mapping is therefore unreachable for non-dict results). -/
def extract (cat : Category) (validTags : List String) (result : JValue) :
    Except PyErr JValue :=
  match cat with
  | .tags =>
    match result with
    | .jobj fields =>
      match pyIterate (pyGet fields "tags" (.jarr [])) with
      | .error e => .error e
      | .ok items => .ok (.jarr ((filterTags validTags items).map .jstr))
    | _ => .error .attributeErr
  | .tickers =>
    match result with
    | .jobj fields => .ok (pyGet fields "tickers" (.jarr []))
    | _ => .error .attributeErr
  | .subsectors =>
    match result with
    | .jobj fields => .ok (pyGet fields "subsector" (.jstr ""))
    | _ => .error .attributeErr
  | .sentiment =>
    match result with
    | .jobj fields => .ok (pyGet fields "sentiment" (.jstr ""))
    | _ => .error .attributeErr
  | .dimension =>
    match result with
    | .jobj _ => .ok result
    | _ => .error .attributeErr

/-- The except clauses of _classify_openai_async (lines 286-298): a
daily-quota RateLimitError logs the daily-limit warning and continues;
a RateLimitError without the daily signature matches the same except
clause, whose body then simply ends, so the loop also advances (nothing
is re-raised); JSONDecodeError and every other Exception log and
continue.  The returned Bool records whether the daily-limit warning was
logged; an error value would mean the exception escaped the handler,
which never happens here. -/
def classifierHandle : PyErr → Except PyErr Bool
  | .rateLimit true => .ok true
  | .rateLimit false => .ok false
  | .jsonDecode => .ok false
  | .attributeErr => .ok false
  | .typeError => .ok false
  | .keyError => .ok false
  | .otherErr => .ok false

/-- The except clauses of ArticleScorer.get_article_score (lines
273-279): json.JSONDecodeError and every other Exception (including
rate-limit errors, which have no dedicated clause here) log and
continue. -/
def scorerHandle : PyErr → Except PyErr Unit
  | .jsonDecode => .ok ()
  | .rateLimit _ => .ok ()
  | .attributeErr => .ok ()
  | .typeError => .ok ()
  | .keyError => .ok ()
  | .otherErr => .ok ()

/-- The except clauses of summarize_llama (lines 83-89): a RateLimitError
is re-raised (escapes the loop); every other Exception is caught and the
loop advances. -/
def summHandle : PyErr → Except PyErr Unit
  | .rateLimit daily => .error (.rateLimit daily)
  | .jsonDecode => .ok ()
  | .attributeErr => .ok ()
  | .typeError => .ok ()
  | .keyError => .ok ()
  | .otherErr => .ok ()

/-- The effect of one backend attempt on the fallback loop: return a
value from the enclosing function, advance to the next backend, or let
an exception escape.  slept records how many seconds of pacing delay
this attempt performed before resolving. -/
inductive StepRes (α : Type) where
  | done (v : α) (slept : Nat)
  | advance (slept : Nat)
  | escape (e : PyErr)
deriving Repr

/-- Pacing delay performed by one attempt. -/
def StepRes.sleptUnits : StepRes α → Nat
  | .done _ s => s
  | .advance s => s
  | .escape _ => 0

/-- Aggregate outcome of a fallback loop: the returned value when some
backend attempt returned one (none when the chain was exhausted), the
number of backend attempts made, and the total pacing delay slept. -/
structure LoopOut (α : Type) where
  result : Option α
  attempts : Nat
  sleep : Nat
deriving Repr

/-- The shared for-llm-in-collection fallback skeleton of all three
source files: try each backend in priority order, return on the first
attempt that produces a value, advance on a handled failure, propagate
an exception an except clause re-raises, and yield no result when the
chain is exhausted. -/
def fallbackLoop (step : LLMOutcome → StepRes α) : List LLMOutcome → Except PyErr (LoopOut α)
  | [] => .ok ⟨none, 0, 0⟩
  | o :: rest =>
    match step o with
    | .done v s => .ok ⟨some v, 1, s⟩
    | .escape e => .error e
    | .advance s =>
      match fallbackLoop step rest with
      | .error esc => .error esc
      | .ok r => .ok ⟨r.result, r.attempts + 1, r.sleep + s⟩

/-- One attempt of the classification loop, _classify_openai_async lines
233-298.  The await asyncio.sleep(8) on line 247 runs only after
invoke_llm_async returns normally; when the call raises, control jumps
to the except clauses and the pacing delay is skipped.  Extraction
errors (result.get on a non-dict) arise after the sleep and are caught
by the same except clauses. -/
def classifyStep (cat : Category) (validTags : List String) (o : LLMOutcome) :
    StepRes JValue :=
  match o with
  | .raiseErr e =>
    match classifierHandle e with
    | .ok _ => .advance 0
    | .error esc => .escape esc
  | .nullResult => .advance 8
  | .success v =>
    match extract cat validTags v with
    | .ok ext => .done ext 8
    | .error e =>
      match classifierHandle e with
      | .ok _ => .advance 8
      | .error esc => .escape esc

/-- The per-category fallback loop of NewsClassifier._classify_openai_async. -/
def classify_openai_async (cat : Category) (validTags : List String)
    (chain : List LLMOutcome) : Except PyErr (LoopOut JValue) :=
  fallbackLoop (classifyStep cat validTags) chain

/-- NewsClassifier.classify_article_async, lines 304-331: run the five
per-category loops strictly sequentially, then return None if any
result is None, else the full five-tuple. -/
def classify_article_async (validTags : List String)
    (kTags kTickers kSubs kSent kDim : List LLMOutcome) :
    Except PyErr (Option (JValue × JValue × JValue × JValue × JValue)) :=
  match classify_openai_async .tags validTags kTags with
  | .error e => .error e
  | .ok rTags =>
    match classify_openai_async .tickers validTags kTickers with
    | .error e => .error e
    | .ok rTickers =>
      match classify_openai_async .subsectors validTags kSubs with
      | .error e => .error e
      | .ok rSubs =>
        match classify_openai_async .sentiment validTags kSent with
        | .error e => .error e
        | .ok rSent =>
          match classify_openai_async .dimension validTags kDim with
          | .error e => .error e
          | .ok rDim =>
            match rTags.result, rTickers.result, rSubs.result,
                  rSent.result, rDim.result with
            | some a, some b, some c, some d, some e => .ok (some (a, b, c, d, e))
            | _, _, _, _, _ => .ok none

/-- Score extraction and clamping, get_article_score lines 263-271:
result_score_raw.get("score", 0) (AttributeError on a non-dict), then
return the score when it lies in [0, 150], else max(0, min(150, score)).
The comparison chain 0 <= score <= 150 raises TypeError when the score
field is neither a number nor a bool (Python bools compare as 0/1). -/
def scoreExtract (result : JValue) : Except PyErr Int :=
  match result with
  | .jobj fields =>
    match pyGet fields "score" (.jnum 0) with
    | .jnum n => .ok (if 0 ≤ n ∧ n ≤ 150 then n else max 0 (min 150 n))
    | .jbool b => .ok (if b then 1 else 0)
    | _ => .error .typeError
  | _ => .error .attributeErr

/-- One attempt of the scoring loop, get_article_score lines 245-279.
The loop body contains no sleep call, so every attempt sleeps 0. -/
def scoreStep (o : LLMOutcome) : StepRes Int :=
  match o with
  | .raiseErr e =>
    match scorerHandle e with
    | .ok _ => .advance 0
    | .error esc => .escape esc
  | .nullResult => .advance 0
  | .success v =>
    match scoreExtract v with
    | .ok n => .done n 0
    | .error e =>
      match scorerHandle e with
      | .ok _ => .advance 0
      | .error esc => .escape esc

/-- ArticleScorer.get_article_score: the scoring fallback loop; a result
of none models the final "return None" after chain exhaustion. -/
def get_article_score (chain : List LLMOutcome) : Except PyErr (LoopOut Int) :=
  fallbackLoop scoreStep chain

/-- One attempt of summarize_llama, lines 66-89.  A response lacking a
truthy title or body logs and continues; a response that is not a dict
raises AttributeError at response.get, caught by the generic except; a
None response likewise fails at response.get; a RateLimitError escapes
via summHandle. -/
def summStep (o : LLMOutcome) : StepRes JValue :=
  match o with
  | .raiseErr e =>
    match summHandle e with
    | .ok _ => .advance 0
    | .error esc => .escape esc
  | .nullResult => .advance 0
  | .success v =>
    match v with
    | .jobj fields =>
      if pyTruthy (pyGet fields "title" .jnull) && pyTruthy (pyGet fields "body" .jnull) then
        .done v 0
      else
        .advance 0
    | _ => .advance 0

/-- The sentinel dict returned by summarize_llama when all LLMs fail. -/
def summSentinel : JValue := .jobj [("title", .jstr ""), ("body", .jstr "")]

/-- summarize_llama, lines 48-92: the summarization fallback loop,
returning the sentinel dict when the chain is exhausted, together with
the number of backend attempts made. -/
def summarize_llama (chain : List LLMOutcome) : Except PyErr (JValue × Nat) :=
  match fallbackLoop summStep chain with
  | .error e => .error e
  | .ok r => .ok (r.result.getD summSentinel, r.attempts)

/-- summarize_news, lines 177-185: when the extracted article text is
non-empty, run the backend loop and index the response dict at "title"
and "body"; when it is empty, return the empty pair without touching any
backend (attempt count 0).  The extracted text is supplied by the
out-of-scope page-to-text collaborator, so it is a parameter here; the
text normalization step does not affect emptiness handling or the loop
and is not modelled. -/
def summarize_news (newsText : String) (chain : List LLMOutcome) :
    Except PyErr ((JValue × JValue) × Nat) :=
  if newsText.length > 0 then
    match summarize_llama chain with
    | .error e => .error e
    | .ok (resp, n) =>
      match pyIndex resp "title" with
      | .error e => .error e
      | .ok t =>
        match pyIndex resp "body" with
        | .error e => .error e
        | .ok b => .ok ((t, b), n)
  else
    .ok ((.jstr "", .jstr ""), 0)

/-- An attempt the classification loop handles by advancing to the next
backend: a raised error (all are swallowed), a None result, or a parsed
result whose per-category extraction fails. -/
def classifyAdvances (cat : Category) (validTags : List String) (o : LLMOutcome) : Bool :=
  match o with
  | .raiseErr _ => true
  | .nullResult => true
  | .success v =>
    match extract cat validTags v with
    | .ok _ => false
    | .error _ => true

/-- An attempt the scoring loop handles by advancing to the next backend. -/
def scoreAdvances (o : LLMOutcome) : Bool :=
  match o with
  | .raiseErr _ => true
  | .nullResult => true
  | .success v =>
    match scoreExtract v with
    | .ok _ => false
    | .error _ => true

/-- An attempt the summarization loop handles by advancing: any raised
error except a RateLimitError, a None response, a non-dict response, or
a dict response lacking a truthy title or body. -/
def summAdvances (o : LLMOutcome) : Bool :=
  match o with
  | .raiseErr e =>
    match e with
    | .rateLimit _ => false
    | _ => true
  | .nullResult => true
  | .success v =>
    match v with
    | .jobj fields =>
      !(pyTruthy (pyGet fields "title" .jnull) && pyTruthy (pyGet fields "body" .jnull))
    | _ => true

/-- Whether the backend call returned normally (so that control reached
the sleep line in the classification loop) rather than raising. -/
def returnedNormally (o : LLMOutcome) : Bool :=
  match o with
  | .raiseErr _ => false
  | .nullResult => true
  | .success _ => true

/-- Whether an error value is a RateLimitError of either flavour. -/
def isRateLimitErr : PyErr → Bool
  | .rateLimit _ => true
  | _ => false

/-- Keep the first occurrence of each string, dropping later duplicates:
the specification-level description of first-seen-order deduplication. -/
def keepFirstOcc : List String → List String
  | [] => []
  | x :: xs => x :: keepFirstOcc (xs.filter (fun y => y != x))
termination_by l => l.length
decreasing_by
  simp only [List.length_cons]
  exact Nat.lt_succ_of_le (List.length_filter_le _ _)

theorem fallbackLoop_cons_done {α : Type} {step : LLMOutcome → StepRes α}
    {o : LLMOutcome} {v : α} {s : Nat} (h : step o = .done v s) (rest : List LLMOutcome) :
    fallbackLoop step (o :: rest) = .ok ⟨some v, 1, s⟩ := by
  simp [fallbackLoop, h]

theorem fallbackLoop_cons_escape {α : Type} {step : LLMOutcome → StepRes α}
    {o : LLMOutcome} {e : PyErr} (h : step o = .escape e) (rest : List LLMOutcome) :
    fallbackLoop step (o :: rest) = .error e := by
  simp [fallbackLoop, h]

theorem fallbackLoop_cons_advance {α : Type} {step : LLMOutcome → StepRes α}
    {o : LLMOutcome} {s : Nat} (h : step o = .advance s) (rest : List LLMOutcome) :
    fallbackLoop step (o :: rest) =
      (fallbackLoop step rest).map (fun r => ⟨r.result, r.attempts + 1, r.sleep + s⟩) := by
  cases hr : fallbackLoop step rest <;> simp [fallbackLoop, h, hr, Except.map]

theorem fallbackLoop_total {α : Type} {step : LLMOutcome → StepRes α}
    (hstep : ∀ o e, step o ≠ .escape e) (chain : List LLMOutcome) :
    ∃ r, fallbackLoop step chain = .ok r := by
  induction chain with
  | nil => exact ⟨_, rfl⟩
  | cons o rest ih =>
    cases h : step o with
    | done v s => exact ⟨_, fallbackLoop_cons_done h rest⟩
    | escape e => exact absurd h (hstep o e)
    | advance s =>
      obtain ⟨r, hr⟩ := ih
      exact ⟨_, by rw [fallbackLoop_cons_advance h rest, hr]; rfl⟩

theorem fallbackLoop_allAdvance {α : Type} {step : LLMOutcome → StepRes α}
    (chain : List LLMOutcome) (h : ∀ o ∈ chain, ∃ s, step o = .advance s) :
    ∃ sl, fallbackLoop step chain = .ok ⟨none, chain.length, sl⟩ := by
  induction chain with
  | nil => exact ⟨0, rfl⟩
  | cons o rest ih =>
    obtain ⟨s, hs⟩ := h o (List.mem_cons_self o rest)
    obtain ⟨sl, hsl⟩ := ih (fun x hx => h x (List.mem_cons_of_mem o hx))
    refine ⟨sl + s, ?_⟩
    rw [fallbackLoop_cons_advance hs rest, hsl]
    rfl

theorem fallbackLoop_firstDone {α : Type} {step : LLMOutcome → StepRes α}
    (pre : List LLMOutcome) {o : LLMOutcome} {v : α} {sd : Nat}
    (rest : List LLMOutcome)
    (hpre : ∀ x ∈ pre, ∃ s, step x = .advance s) (ho : step o = .done v sd) :
    ∃ sl, fallbackLoop step (pre ++ o :: rest) = .ok ⟨some v, pre.length + 1, sl⟩ := by
  induction pre with
  | nil => exact ⟨sd, fallbackLoop_cons_done ho rest⟩
  | cons x pre ih =>
    obtain ⟨s, hs⟩ := hpre x (List.mem_cons_self x pre)
    obtain ⟨sl, hsl⟩ := ih (fun y hy => hpre y (List.mem_cons_of_mem x hy))
    refine ⟨sl + s, ?_⟩
    rw [List.cons_append, fallbackLoop_cons_advance hs (pre ++ o :: rest), hsl]
    rfl

theorem fallbackLoop_sleep {α : Type} {step : LLMOutcome → StepRes α}
    (g : LLMOutcome → Nat) (hg : ∀ o, (step o).sleptUnits = g o) :
    ∀ (chain : List LLMOutcome) (r : LoopOut α),
      fallbackLoop step chain = .ok r →
      r.sleep = ((chain.take r.attempts).map g).sum := by
  intro chain
  induction chain with
  | nil =>
    intro r hr
    cases hr
    rfl
  | cons o rest ih =>
    intro r hr
    cases h : step o with
    | done v s =>
      rw [fallbackLoop_cons_done h rest] at hr
      cases hr
      have := hg o
      rw [h] at this
      simp [StepRes.sleptUnits] at this
      simp [← this]
    | escape e =>
      rw [fallbackLoop_cons_escape h rest] at hr
      cases hr
    | advance s =>
      rw [fallbackLoop_cons_advance h rest] at hr
      cases hrec : fallbackLoop step rest with
      | error e => rw [hrec] at hr; cases hr
      | ok r0 =>
        rw [hrec] at hr
        cases hr
        have hgo := hg o
        rw [h] at hgo
        simp [StepRes.sleptUnits] at hgo
        have := ih r0 hrec
        simp [List.take_succ_cons, this, ← hgo]
        omega

theorem sum_map_ite_eight (p : LLMOutcome → Bool) (l : List LLMOutcome) :
    (l.map (fun o => if p o then 8 else 0)).sum = 8 * l.countP p := by
  induction l with
  | nil => rfl
  | cons o rest ih =>
    cases h : p o
    · simp [List.countP_cons, h, ih]
    · simp [List.countP_cons, h, ih]
      omega

theorem classifierHandle_ok (e : PyErr) : ∃ b, classifierHandle e = .ok b := by
  cases e with
  | rateLimit d => cases d <;> exact ⟨_, rfl⟩
  | jsonDecode => exact ⟨_, rfl⟩
  | attributeErr => exact ⟨_, rfl⟩
  | typeError => exact ⟨_, rfl⟩
  | keyError => exact ⟨_, rfl⟩
  | otherErr => exact ⟨_, rfl⟩

theorem scorerHandle_ok (e : PyErr) : scorerHandle e = .ok () := by
  cases e <;> rfl

theorem classifyStep_no_escape (cat : Category) (validTags : List String)
    (o : LLMOutcome) (e0 : PyErr) : classifyStep cat validTags o ≠ .escape e0 := by
  cases o with
  | raiseErr e =>
    obtain ⟨b, hb⟩ := classifierHandle_ok e
    simp [classifyStep, hb]
  | nullResult => simp [classifyStep]
  | success v =>
    cases hx : extract cat validTags v with
    | ok ext => simp [classifyStep, hx]
    | error e =>
      obtain ⟨b, hb⟩ := classifierHandle_ok e
      simp [classifyStep, hx, hb]

theorem classifyStep_advance_of {cat : Category} {validTags : List String}
    {o : LLMOutcome} (h : classifyAdvances cat validTags o = true) :
    ∃ s, classifyStep cat validTags o = .advance s := by
  cases o with
  | raiseErr e =>
    obtain ⟨b, hb⟩ := classifierHandle_ok e
    exact ⟨0, by simp [classifyStep, hb]⟩
  | nullResult => exact ⟨8, rfl⟩
  | success v =>
    cases hx : extract cat validTags v with
    | ok ext => simp [classifyAdvances, hx] at h
    | error e =>
      obtain ⟨b, hb⟩ := classifierHandle_ok e
      exact ⟨8, by simp [classifyStep, hx, hb]⟩

theorem classifyStep_done_of {cat : Category} {validTags : List String}
    {v : JValue} {ext : JValue} (h : extract cat validTags v = .ok ext) :
    classifyStep cat validTags (.success v) = .done ext 8 := by
  simp [classifyStep, h]

theorem classifyStep_slept (cat : Category) (validTags : List String)
    (o : LLMOutcome) :
    (classifyStep cat validTags o).sleptUnits =
      if returnedNormally o then 8 else 0 := by
  cases o with
  | raiseErr e =>
    obtain ⟨b, hb⟩ := classifierHandle_ok e
    simp [classifyStep, hb, returnedNormally, StepRes.sleptUnits]
  | nullResult => rfl
  | success v =>
    cases hx : extract cat validTags v with
    | ok ext => simp [classifyStep, hx, returnedNormally, StepRes.sleptUnits]
    | error e =>
      obtain ⟨b, hb⟩ := classifierHandle_ok e
      simp [classifyStep, hx, hb, returnedNormally, StepRes.sleptUnits]

theorem scoreStep_no_escape (o : LLMOutcome) (e0 : PyErr) :
    scoreStep o ≠ .escape e0 := by
  cases o with
  | raiseErr e => simp [scoreStep, scorerHandle_ok e]
  | nullResult => simp [scoreStep]
  | success v =>
    cases hx : scoreExtract v with
    | ok n => simp [scoreStep, hx]
    | error e => simp [scoreStep, hx, scorerHandle_ok e]

theorem scoreStep_advance_of {o : LLMOutcome} (h : scoreAdvances o = true) :
    ∃ s, scoreStep o = .advance s := by
  cases o with
  | raiseErr e => exact ⟨0, by simp [scoreStep, scorerHandle_ok e]⟩
  | nullResult => exact ⟨0, rfl⟩
  | success v =>
    cases hx : scoreExtract v with
    | ok n => simp [scoreAdvances, hx] at h
    | error e => exact ⟨0, by simp [scoreStep, hx, scorerHandle_ok e]⟩

theorem scoreStep_done_of {v : JValue} {n : Int} (h : scoreExtract v = .ok n) :
    scoreStep (.success v) = .done n 0 := by
  simp [scoreStep, h]

theorem scoreStep_slept (o : LLMOutcome) : (scoreStep o).sleptUnits = 0 := by
  cases o with
  | raiseErr e => simp [scoreStep, scorerHandle_ok e, StepRes.sleptUnits]
  | nullResult => rfl
  | success v =>
    cases hx : scoreExtract v with
    | ok n => simp [scoreStep, hx, StepRes.sleptUnits]
    | error e => simp [scoreStep, hx, scorerHandle_ok e, StepRes.sleptUnits]

theorem summStep_rateLimit (d : Bool) :
    summStep (.raiseErr (.rateLimit d)) = .escape (.rateLimit d) := rfl

theorem summStep_advance_of {o : LLMOutcome} (h : summAdvances o = true) :
    summStep o = .advance 0 := by
  cases o with
  | raiseErr e =>
    cases e with
    | rateLimit d => simp [summAdvances] at h
    | jsonDecode => rfl
    | attributeErr => rfl
    | typeError => rfl
    | keyError => rfl
    | otherErr => rfl
  | nullResult => rfl
  | success v =>
    cases v with
    | jobj fields =>
      simp only [summAdvances, Bool.not_eq_eq_eq_not, Bool.not_true] at h
      simp [summStep, h]
    | jnull => rfl
    | jbool b => rfl
    | jnum n => rfl
    | jstr s => rfl
    | jarr items => rfl

theorem keepFirstOcc_nil : keepFirstOcc [] = [] := by
  simp [keepFirstOcc]

theorem keepFirstOcc_cons (x : String) (xs : List String) :
    keepFirstOcc (x :: xs) = x :: keepFirstOcc (xs.filter (fun y => y != x)) := by
  rw [keepFirstOcc]

theorem filterTagsAux_strings (valid : List String) :
    ∀ (raw : List String) (seen : List String),
      filterTagsAux valid seen (raw.map .jstr) =
        keepFirstOcc (raw.filter (fun s => valid.contains s && !seen.contains s)) := by
  intro raw
  induction raw with
  | nil => intro seen; simp [filterTagsAux, keepFirstOcc_nil]
  | cons s rest ih =>
    intro seen
    simp only [List.map_cons, filterTagsAux]
    by_cases h : (valid.contains s && !seen.contains s) = true
    · have hfil : rest.filter (fun t => valid.contains t && !((s :: seen).contains t)) =
          (rest.filter (fun t => valid.contains t && !seen.contains t)).filter
            (fun y => y != s) := by
        rw [List.filter_filter]
        apply List.filter_congr
        intro t _
        simp only [List.contains_cons]
        cases hts : (t == s) <;> cases hv : valid.contains t <;>
          cases hsn : seen.contains t <;> simp [bne, hts, hv, hsn]
      rw [if_pos h, List.filter_cons, if_pos h, keepFirstOcc_cons, ih (s :: seen), hfil]
    · rw [if_neg h, List.filter_cons, if_neg h, ih seen]

theorem filterTags_strings (valid raw : List String) :
    filterTags valid (raw.map .jstr) =
      keepFirstOcc (raw.filter (fun s => valid.contains s)) := by
  rw [filterTags, filterTagsAux_strings valid raw []]
  congr 1
  apply List.filter_congr
  intro t _
  simp [List.contains]

theorem mem_filterTagsAux (valid : List String) :
    ∀ (raw : List JValue) (seen : List String) (s : String),
      s ∈ filterTagsAux valid seen raw →
      valid.contains s = true ∧ seen.contains s = false := by
  intro raw
  induction raw with
  | nil => intro seen s hs; simp [filterTagsAux] at hs
  | cons t rest ih =>
    intro seen s hs
    cases t with
    | jstr u =>
      simp only [filterTagsAux] at hs
      by_cases h : (valid.contains u && !seen.contains u) = true
      · rw [if_pos h] at hs
        rcases List.mem_cons.mp hs with rfl | hs
        · simpa using h
        · have := ih (u :: seen) s hs
          refine ⟨this.1, ?_⟩
          have h2 := this.2
          simp only [List.contains_cons] at h2
          exact (Bool.or_eq_false_iff.mp h2).2
      · rw [if_neg h] at hs
        exact ih seen s hs
    | jnull => exact ih seen s hs
    | jbool b => exact ih seen s hs
    | jnum n => exact ih seen s hs
    | jarr items => exact ih seen s hs
    | jobj fields => exact ih seen s hs

theorem nodup_filterTagsAux (valid : List String) :
    ∀ (raw : List JValue) (seen : List String),
      (filterTagsAux valid seen raw).Nodup := by
  intro raw
  induction raw with
  | nil => intro seen; simp [filterTagsAux]
  | cons t rest ih =>
    intro seen
    cases t with
    | jstr u =>
      simp only [filterTagsAux]
      by_cases h : (valid.contains u && !seen.contains u) = true
      · rw [if_pos h]
        refine List.Nodup.cons ?_ (ih (u :: seen))
        intro hmem
        have := (mem_filterTagsAux valid rest (u :: seen) u hmem).2
        simp at this
      · rw [if_neg h]
        exact ih seen
    | jnull => exact ih seen
    | jbool b => exact ih seen
    | jnum n => exact ih seen
    | jarr items => exact ih seen
    | jobj fields => exact ih seen

theorem keepFirstOcc_eq_self_of_nodup :
    ∀ l : List String, l.Nodup → keepFirstOcc l = l := by
  intro l
  induction l with
  | nil => intro _; exact keepFirstOcc_nil
  | cons x xs ih =>
    intro hnd
    rw [keepFirstOcc_cons]
    have hx : xs.filter (fun y => y != x) = xs := by
      rw [List.filter_eq_self]
      intro a ha
      have : a ≠ x := fun hax => (List.nodup_cons.mp hnd).1 (hax ▸ ha)
      simpa [bne] using this
    rw [hx, ih (List.nodup_cons.mp hnd).2]

theorem sum_map_zero {α : Type} (l : List α) : (l.map (fun _ => (0 : Nat))).sum = 0 := by
  induction l <;> simp [*]

theorem classify_total (cat : Category) (validTags : List String)
    (chain : List LLMOutcome) :
    ∃ r, classify_openai_async cat validTags chain = .ok r :=
  fallbackLoop_total (classifyStep_no_escape cat validTags) chain

theorem classify_exhausted (cat : Category) (validTags : List String)
    (chain : List LLMOutcome) (h : chain.all (classifyAdvances cat validTags) = true) :
    ∃ sl, classify_openai_async cat validTags chain = .ok ⟨none, chain.length, sl⟩ :=
  fallbackLoop_allAdvance chain
    (fun o ho => classifyStep_advance_of (List.all_eq_true.mp h o ho))

theorem classify_firstDone (cat : Category) (validTags : List String)
    (pre : List LLMOutcome) (v ext : JValue) (rest : List LLMOutcome)
    (hpre : pre.all (classifyAdvances cat validTags) = true)
    (hv : extract cat validTags v = .ok ext) :
    ∃ sl, classify_openai_async cat validTags (pre ++ .success v :: rest) =
      .ok ⟨some ext, pre.length + 1, sl⟩ :=
  fallbackLoop_firstDone pre rest
    (fun x hx => classifyStep_advance_of (List.all_eq_true.mp hpre x hx))
    (classifyStep_done_of hv)

theorem classify_sleep (cat : Category) (validTags : List String)
    (chain : List LLMOutcome) (r : LoopOut JValue)
    (h : classify_openai_async cat validTags chain = .ok r) :
    r.sleep = 8 * ((chain.take r.attempts).countP returnedNormally) := by
  have := fallbackLoop_sleep (fun o => if returnedNormally o then 8 else 0)
    (classifyStep_slept cat validTags) chain r h
  rw [this, sum_map_ite_eight]

theorem score_total (chain : List LLMOutcome) :
    ∃ r, get_article_score chain = .ok r :=
  fallbackLoop_total scoreStep_no_escape chain

theorem score_sleep_zero (chain : List LLMOutcome) (r : LoopOut Int)
    (h : get_article_score chain = .ok r) : r.sleep = 0 := by
  have := fallbackLoop_sleep (fun _ => 0) scoreStep_slept chain r h
  rw [this, sum_map_zero]

theorem score_exhausted (chain : List LLMOutcome)
    (h : chain.all scoreAdvances = true) :
    get_article_score chain = .ok ⟨none, chain.length, 0⟩ := by
  obtain ⟨sl, hs⟩ := fallbackLoop_allAdvance chain
    (fun o ho => scoreStep_advance_of (List.all_eq_true.mp h o ho))
  have h0 := score_sleep_zero chain ⟨none, chain.length, sl⟩ hs
  simp only [] at h0
  rw [h0] at hs
  exact hs

theorem score_firstDone (pre : List LLMOutcome) (v : JValue) (n : Int)
    (rest : List LLMOutcome) (hpre : pre.all scoreAdvances = true)
    (hv : scoreExtract v = .ok n) :
    get_article_score (pre ++ .success v :: rest) = .ok ⟨some n, pre.length + 1, 0⟩ := by
  obtain ⟨sl, hs⟩ := fallbackLoop_firstDone pre rest
    (fun x hx => scoreStep_advance_of (List.all_eq_true.mp hpre x hx))
    (scoreStep_done_of hv)
  have h0 := score_sleep_zero _ ⟨some n, pre.length + 1, sl⟩ hs
  simp only [] at h0
  rw [h0] at hs
  exact hs

theorem summ_exhausted (chain : List LLMOutcome)
    (h : chain.all summAdvances = true) :
    summarize_llama chain = .ok (summSentinel, chain.length) := by
  obtain ⟨sl, hs⟩ := fallbackLoop_allAdvance chain
    (fun o ho => ⟨0, summStep_advance_of (List.all_eq_true.mp h o ho)⟩)
  simp [summarize_llama, hs]

/-- C1: both the classification and the scoring invocation loops try
backends strictly in priority-list order: every run returns a value with
no exception escaping; when every backend attempt in the chain fails
(null result, rate limit, malformed output, or any other exception) the
loop makes exactly one attempt per backend and returns none; and when
the backends before some position all fail and that position succeeds
and extracts, the loop returns that parsed result immediately with one
attempt per preceding backend plus one, never touching later backends. -/
theorem c1_fallback_order :
    (∀ (cat : Category) (validTags : List String) (chain : List LLMOutcome),
       ∃ r, classify_openai_async cat validTags chain = .ok r) ∧
    (∀ (cat : Category) (validTags : List String) (chain : List LLMOutcome),
       chain.all (classifyAdvances cat validTags) = true →
       ∃ sl, classify_openai_async cat validTags chain = .ok ⟨none, chain.length, sl⟩) ∧
    (∀ (cat : Category) (validTags : List String) (pre : List LLMOutcome)
       (v ext : JValue) (rest : List LLMOutcome),
       pre.all (classifyAdvances cat validTags) = true →
       extract cat validTags v = .ok ext →
       ∃ sl, classify_openai_async cat validTags (pre ++ .success v :: rest) =
         .ok ⟨some ext, pre.length + 1, sl⟩) ∧
    (∀ chain : List LLMOutcome, ∃ r, get_article_score chain = .ok r) ∧
    (∀ chain : List LLMOutcome, chain.all scoreAdvances = true →
       get_article_score chain = .ok ⟨none, chain.length, 0⟩) ∧
    (∀ (pre : List LLMOutcome) (v : JValue) (n : Int) (rest : List LLMOutcome),
       pre.all scoreAdvances = true → scoreExtract v = .ok n →
       get_article_score (pre ++ .success v :: rest) =
         .ok ⟨some n, pre.length + 1, 0⟩) :=
  ⟨classify_total,
   classify_exhausted,
   fun cat validTags pre v ext rest h1 h2 =>
     classify_firstDone cat validTags pre v ext rest h1 h2,
   score_total,
   score_exhausted,
   score_firstDone⟩

/-- C1 witness: a classification chain of two failures is exhausted with
two attempts; a chain whose second backend succeeds returns its result
after two attempts while a third backend is never needed; same for the
scoring loop. -/
theorem c1_fallback_order_witness :
    (∃ sl, classify_openai_async .sentiment ["m"] [.nullResult, .raiseErr .jsonDecode] =
       .ok ⟨none, 2, sl⟩) ∧
    (∃ sl, classify_openai_async .sentiment []
       ([.raiseErr (.rateLimit true)] ++
         .success (.jobj [("sentiment", .jstr "bullish")]) :: [.nullResult]) =
       .ok ⟨some (.jstr "bullish"), 2, sl⟩) ∧
    get_article_score ([.raiseErr .otherErr] ++
        .success (.jobj [("score", .jnum 42)]) :: [.nullResult]) =
      .ok ⟨some 42, 2, 0⟩ := by
  refine ⟨?_, ?_, ?_⟩
  · exact c1_fallback_order.2.1 .sentiment ["m"] [.nullResult, .raiseErr .jsonDecode] rfl
  · exact c1_fallback_order.2.2.1 .sentiment [] [.raiseErr (.rateLimit true)]
      (.jobj [("sentiment", .jstr "bullish")]) (.jstr "bullish") [.nullResult] rfl rfl
  · exact c1_fallback_order.2.2.2.2.2 [.raiseErr .otherErr]
      (.jobj [("score", .jnum 42)]) 42 [.nullResult] rfl rfl

/-- C2: classify_article_async is all-or-nothing: given the values of
the five sequential per-category loop runs, the orchestrator returns
None exactly when at least one of the five results is None, and returns
a five-tuple exactly when all five results are present, in which case
the tuple components are exactly the five per-category results — no
partial tuple of the successful categories is ever produced. -/
theorem c2_all_or_nothing (validTags : List String)
    (kTags kTickers kSubs kSent kDim : List LLMOutcome)
    (rTags rTickers rSubs rSent rDim : LoopOut JValue)
    (hTags : classify_openai_async .tags validTags kTags = .ok rTags)
    (hTickers : classify_openai_async .tickers validTags kTickers = .ok rTickers)
    (hSubs : classify_openai_async .subsectors validTags kSubs = .ok rSubs)
    (hSent : classify_openai_async .sentiment validTags kSent = .ok rSent)
    (hDim : classify_openai_async .dimension validTags kDim = .ok rDim) :
    (classify_article_async validTags kTags kTickers kSubs kSent kDim = .ok none ↔
      (rTags.result = none ∨ rTickers.result = none ∨ rSubs.result = none ∨
       rSent.result = none ∨ rDim.result = none)) ∧
    (∀ a b c d e : JValue,
      classify_article_async validTags kTags kTickers kSubs kSent kDim =
          .ok (some (a, b, c, d, e)) ↔
        (rTags.result = some a ∧ rTickers.result = some b ∧ rSubs.result = some c ∧
         rSent.result = some d ∧ rDim.result = some e)) := by
  unfold classify_article_async
  rw [hTags, hTickers, hSubs, hSent, hDim]
  rcases rTags with ⟨res1, a1, s1⟩
  rcases rTickers with ⟨res2, a2, s2⟩
  rcases rSubs with ⟨res3, a3, s3⟩
  rcases rSent with ⟨res4, a4, s4⟩
  rcases rDim with ⟨res5, a5, s5⟩
  cases res1 <;> cases res2 <;> cases res3 <;> cases res4 <;> cases res5 <;>
    simp [and_assoc]

/-- C2 witness: four categories succeed but the dimension chain is
exhausted, so the whole article classification is None; when all five
succeed the full tuple of the five results is returned. -/
theorem c2_all_or_nothing_witness :
    (classify_article_async []
      [.success (.jobj [("tags", .jarr [])])]
      [.success (.jobj [("tickers", .jarr [.jstr "BBCA.JK"])])]
      [.success (.jobj [("subsector", .jstr "banks")])]
      [.success (.jobj [("sentiment", .jstr "bullish")])]
      [.nullResult] = .ok none) ∧
    (classify_article_async []
      [.success (.jobj [("tags", .jarr [])])]
      [.success (.jobj [("tickers", .jarr [.jstr "BBCA.JK"])])]
      [.success (.jobj [("subsector", .jstr "banks")])]
      [.success (.jobj [("sentiment", .jstr "bullish")])]
      [.success (.jobj [("valuation", .jnum 1)])] =
      .ok (some (.jarr [], .jarr [.jstr "BBCA.JK"], .jstr "banks", .jstr "bullish",
                 .jobj [("valuation", .jnum 1)]))) := by
  constructor
  · exact (c2_all_or_nothing []
      [.success (.jobj [("tags", .jarr [])])]
      [.success (.jobj [("tickers", .jarr [.jstr "BBCA.JK"])])]
      [.success (.jobj [("subsector", .jstr "banks")])]
      [.success (.jobj [("sentiment", .jstr "bullish")])]
      [.nullResult]
      ⟨some (.jarr []), 1, 8⟩ ⟨some (.jarr [.jstr "BBCA.JK"]), 1, 8⟩
      ⟨some (.jstr "banks"), 1, 8⟩ ⟨some (.jstr "bullish"), 1, 8⟩ ⟨none, 1, 8⟩
      rfl rfl rfl rfl rfl).1.mpr (by simp)
  · exact (c2_all_or_nothing []
      [.success (.jobj [("tags", .jarr [])])]
      [.success (.jobj [("tickers", .jarr [.jstr "BBCA.JK"])])]
      [.success (.jobj [("subsector", .jstr "banks")])]
      [.success (.jobj [("sentiment", .jstr "bullish")])]
      [.success (.jobj [("valuation", .jnum 1)])]
      ⟨some (.jarr []), 1, 8⟩ ⟨some (.jarr [.jstr "BBCA.JK"]), 1, 8⟩
      ⟨some (.jstr "banks"), 1, 8⟩ ⟨some (.jstr "bullish"), 1, 8⟩
      ⟨some (.jobj [("valuation", .jnum 1)]), 1, 8⟩
      rfl rfl rfl rfl rfl).2 (.jarr []) (.jarr [.jstr "BBCA.JK"]) (.jstr "banks")
      (.jstr "bullish") (.jobj [("valuation", .jnum 1)]) |>.mpr (by simp)

/-- C3 (demonstrating the code bug): on a successful dimension result
that is not a mapping, the fallback branch calls result.get on a
non-dict, which raises AttributeError instead of synthesizing the 8-key
mapping the branch was written to build; the generic except clause
swallows the error and the loop advances to the next backend, so a
single-backend chain ends exhausted with result None rather than
returning the null-filled mapping.  A result that is already a mapping
is passed through unchanged, as intended. -/
theorem c3_dimension_fallback_unreachable :
    extract .dimension [] (.jstr "bullish") = .error .attributeErr ∧
    classify_openai_async .dimension [] [.success (.jstr "bullish")] =
      .ok ⟨none, 1, 8⟩ ∧
    (∀ fields : List (String × JValue),
       extract .dimension [] (.jobj fields) = .ok (.jobj fields)) :=
  ⟨rfl, rfl, fun _ => rfl⟩

/-- C4 counterexample: a classification attempt whose backend call
raises jumps to the except clause before reaching the sleep line, so the
pacing delay is skipped (total sleep 0, not 8, for a one-backend chain
whose call reached the backend and failed); and the scoring loop
contains no pacing delay at all, sleeping 0 even on a successful
attempt. -/
theorem c4_pacing_counterexample :
    classify_openai_async .tags [] [.raiseErr .otherErr] = .ok ⟨none, 1, 0⟩ ∧
    get_article_score [.success (.jobj [("score", .jnum 50)])] = .ok ⟨some 50, 1, 0⟩ :=
  ⟨rfl, rfl⟩

/-- C4 (amended): in the classification loop the 8-unit pacing delay is
imposed exactly once after each attempt whose backend call returns
normally (success or null result) — in particular a successful
first-attempt request sleeps 8 before returning — while attempts whose
call raises skip the delay; the scoring loop imposes no pacing delay at
this layer. -/
theorem c4_pacing_amended :
    (∀ (cat : Category) (validTags : List String) (chain : List LLMOutcome)
       (r : LoopOut JValue),
       classify_openai_async cat validTags chain = .ok r →
       r.sleep = 8 * ((chain.take r.attempts).countP returnedNormally)) ∧
    (∀ (cat : Category) (validTags : List String) (v ext : JValue)
       (rest : List LLMOutcome),
       extract cat validTags v = .ok ext →
       classify_openai_async cat validTags (.success v :: rest) =
         .ok ⟨some ext, 1, 8⟩) ∧
    (∀ (chain : List LLMOutcome) (r : LoopOut Int),
       get_article_score chain = .ok r → r.sleep = 0) :=
  ⟨classify_sleep,
   fun _ _ _ _ rest h =>
     fallbackLoop_cons_done (classifyStep_done_of h) rest,
   score_sleep_zero⟩

/-- C4 witness: a first-try classification success sleeps exactly 8; a
two-attempt run whose first call raised slept 8 only for the second,
normally-returning attempt; a successful scoring run slept 0. -/
theorem c4_pacing_amended_witness :
    classify_openai_async .sentiment [] [.success (.jobj [("sentiment", .jstr "up")])] =
      .ok ⟨some (.jstr "up"), 1, 8⟩ ∧
    (LoopOut.mk (α := JValue) none 2 8).sleep =
      8 * (([LLMOutcome.raiseErr .otherErr, .nullResult].take 2).countP returnedNormally) ∧
    (LoopOut.mk (α := Int) (some 42) 1 0).sleep = 0 := by
  refine ⟨?_, ?_, ?_⟩
  · exact c4_pacing_amended.2.1 .sentiment [] (.jobj [("sentiment", .jstr "up")])
      (.jstr "up") [] rfl
  · exact c4_pacing_amended.1 .tags [] [.raiseErr .otherErr, .nullResult] ⟨none, 2, 8⟩ rfl
  · exact c4_pacing_amended.2.2 [.success (.jobj [("score", .jnum 42)])] ⟨some 42, 1, 0⟩ rfl

/-- C5: the scoring engine clamps every numeric raw score into [0, 150]
(a first-backend success with raw score n returns max 0 (min 150 n), so
-10, 0, 100, 150, 200 map to 0, 0, 100, 150, 150, and in-range values
are returned unchanged), and a chain in which every backend fails
returns None rather than fabricating a default numeric score. -/
theorem c5_score_clamp :
    (∀ (n : Int) (chain : List LLMOutcome),
       get_article_score (.success (.jobj [("score", .jnum n)]) :: chain) =
         .ok ⟨some (max 0 (min 150 n)), 1, 0⟩) ∧
    (get_article_score [.success (.jobj [("score", .jnum (-10))])] = .ok ⟨some 0, 1, 0⟩ ∧
     get_article_score [.success (.jobj [("score", .jnum 0)])] = .ok ⟨some 0, 1, 0⟩ ∧
     get_article_score [.success (.jobj [("score", .jnum 100)])] = .ok ⟨some 100, 1, 0⟩ ∧
     get_article_score [.success (.jobj [("score", .jnum 150)])] = .ok ⟨some 150, 1, 0⟩ ∧
     get_article_score [.success (.jobj [("score", .jnum 200)])] = .ok ⟨some 150, 1, 0⟩) ∧
    (∀ chain : List LLMOutcome, chain.all scoreAdvances = true →
       get_article_score chain = .ok ⟨none, chain.length, 0⟩) := by
  refine ⟨?_, ⟨rfl, rfl, rfl, rfl, rfl⟩, score_exhausted⟩
  intro n chain
  have hx : scoreExtract (.jobj [("score", .jnum n)]) = .ok (max 0 (min 150 n)) := by
    show Except.ok (if 0 ≤ n ∧ n ≤ 150 then n else max 0 (min 150 n)) = _
    congr 1
    split
    · omega
    · rfl
  exact fallbackLoop_cons_done (scoreStep_done_of hx) chain

/-- C5 witness: a raw score of 777 is clamped to 150; a chain of a null
result and a malformed-JSON failure is exhausted and returns None. -/
theorem c5_score_clamp_witness :
    get_article_score [.success (.jobj [("score", .jnum 777)])] = .ok ⟨some 150, 1, 0⟩ ∧
    get_article_score [.nullResult, .raiseErr .jsonDecode] = .ok ⟨none, 2, 0⟩ := by
  constructor
  · have := c5_score_clamp.1 777 []
    norm_num at this
    exact this
  · exact c5_score_clamp.2.2 [.nullResult, .raiseErr .jsonDecode] rfl

/-- C6: the tags extraction keeps exactly the raw tags that are members
of the valid-tag vocabulary, deduplicated keeping the first occurrence
in raw order (stated via the independent keepFirstOcc characterization);
on raw ["b","a","b","x"] against valid tags {a,b} it yields ["b","a"];
and re-filtering its own output returns it unchanged (idempotence). -/
theorem c6_tag_filter :
    (∀ (valid raw : List String),
       extract .tags valid (.jobj [("tags", .jarr (raw.map .jstr))]) =
         .ok (.jarr ((keepFirstOcc (raw.filter (fun s => valid.contains s))).map .jstr))) ∧
    (filterTags ["a", "b"] (["b", "a", "b", "x"].map .jstr) = ["b", "a"]) ∧
    (∀ (valid : List String) (raw : List JValue),
       filterTags valid ((filterTags valid raw).map .jstr) = filterTags valid raw) := by
  refine ⟨?_, rfl, ?_⟩
  · intro valid raw
    have h1 : extract .tags valid (.jobj [("tags", .jarr (raw.map .jstr))]) =
        .ok (.jarr ((filterTags valid (raw.map .jstr)).map .jstr)) := rfl
    rw [h1, filterTags_strings]
  · intro valid raw
    have hmem : ∀ s ∈ filterTags valid raw, valid.contains s = true :=
      fun s hs => (mem_filterTagsAux valid raw [] s hs).1
    have hnd : (filterTags valid raw).Nodup := nodup_filterTagsAux valid raw []
    rw [filterTags_strings,
      List.filter_eq_self.mpr (fun a ha => hmem a ha)]
    exact keepFirstOcc_eq_self_of_nodup _ hnd

/-- C7: in the summarization loop a RateLimitError raised by a backend
is re-raised by its except clause and propagates out of the loop to the
caller, while any other raised error is caught and the loop advances to
the next backend, its final value being that of the remaining chain with
one more attempt counted. -/
theorem c7_summ_ratelimit :
    (∀ (d : Bool) (rest : List LLMOutcome),
       summarize_llama (.raiseErr (.rateLimit d) :: rest) = .error (.rateLimit d)) ∧
    (∀ (e : PyErr) (rest : List LLMOutcome), isRateLimitErr e = false →
       summarize_llama (.raiseErr e :: rest) =
         (summarize_llama rest).map (fun pn => (pn.1, pn.2 + 1))) := by
  constructor
  · intro d rest
    simp only [summarize_llama, fallbackLoop_cons_escape (summStep_rateLimit d) rest]
  · intro e rest h
    have hstep : summStep (.raiseErr e) = .advance 0 := by
      cases e with
      | rateLimit d => simp [isRateLimitErr] at h
      | jsonDecode => rfl
      | attributeErr => rfl
      | typeError => rfl
      | keyError => rfl
      | otherErr => rfl
    simp only [summarize_llama, fallbackLoop_cons_advance hstep rest]
    cases hr : fallbackLoop summStep rest <;> simp [Except.map, hr]

/-- C7 witness: a rate-limited sole backend makes the loop raise; a
malformed-output sole backend is swallowed and the loop falls through to
the sentinel with one attempt counted. -/
theorem c7_summ_ratelimit_witness :
    summarize_llama [.raiseErr (.rateLimit true)] = .error (.rateLimit true) ∧
    summarize_llama [.raiseErr .jsonDecode] = .ok (summSentinel, 1) :=
  ⟨c7_summ_ratelimit.1 true [],
   (c7_summ_ratelimit.2 .jsonDecode [] rfl).trans rfl⟩

/-- C8 counterexample: with non-empty text and a chain whose only
backend raises a RateLimitError, no backend produces a response with a
non-empty title and body, yet summarize does not return the sentinel
pair — the error propagates out instead. -/
theorem c8_counterexample :
    summarize_news "text" [.raiseErr (.rateLimit false)] = .error (.rateLimit false) ∧
    summarize_news "text" [.raiseErr (.rateLimit false)] ≠
      .ok (((.jstr ""), (.jstr "")), 1) := by
  refine ⟨rfl, ?_⟩
  intro h
  rw [show summarize_news "text" [.raiseErr (.rateLimit false)] =
      Except.error (PyErr.rateLimit false) from rfl] at h
  exact Except.noConfusion h

/-- C8 (amended): when extraction yields empty text, summarize returns
the empty-string pair with zero backend attempts; when the text is
non-empty and every backend attempt fails or is incomplete without
raising a RateLimitError, summarize returns the empty-string sentinel
pair after one attempt per backend (a RateLimitError instead propagates,
as the summarization failure semantics prescribe). -/
theorem c8_empty_and_exhaustion :
    (∀ chain : List LLMOutcome,
       summarize_news "" chain = .ok (((.jstr ""), (.jstr "")), 0)) ∧
    (∀ (newsText : String) (chain : List LLMOutcome),
       newsText.length > 0 → chain.all summAdvances = true →
       summarize_news newsText chain = .ok (((.jstr ""), (.jstr "")), chain.length)) := by
  constructor
  · intro chain
    rfl
  · intro newsText chain hlen hall
    have hs := summ_exhausted chain hall
    unfold summarize_news
    rw [if_pos hlen, hs]
    rfl

/-- C8 witness: empty text returns the empty pair with zero attempts
even with a willing backend in the chain; non-empty text with a chain of
one generic failure and one title-only (incomplete) response returns the
sentinel pair after both attempts. -/
theorem c8_empty_and_exhaustion_witness :
    summarize_news "" [.success (.jobj [("title", .jstr "t"), ("body", .jstr "b")])] =
      .ok (((.jstr ""), (.jstr "")), 0) ∧
    summarize_news "x" [.raiseErr .otherErr, .success (.jobj [("title", .jstr "t")])] =
      .ok (((.jstr ""), (.jstr "")), 2) :=
  ⟨c8_empty_and_exhaustion.1 [.success (.jobj [("title", .jstr "t"), ("body", .jstr "b")])],
   c8_empty_and_exhaustion.2 "x" [.raiseErr .otherErr, .success (.jobj [("title", .jstr "t")])]
     (by decide) rfl⟩

/-- C9: on a successful parse, the tickers category returns the raw
tickers field and the subsectors category returns the raw subsector
field exactly as extracted (with the source defaults for a missing
field), for every field list and every raw value — no filtering against
the company or subsector reference enumerations takes place, unlike
tags. -/
theorem c9_passthrough :
    (∀ (validTags : List String) (fields : List (String × JValue)),
       extract .tickers validTags (.jobj fields) =
         .ok (pyGet fields "tickers" (.jarr []))) ∧
    (∀ (validTags : List String) (fields : List (String × JValue)),
       extract .subsectors validTags (.jobj fields) =
         .ok (pyGet fields "subsector" (.jstr ""))) ∧
    (∀ (validTags : List String) (v : JValue),
       extract .tickers validTags (.jobj [("tickers", v)]) = .ok v) ∧
    (∀ (validTags : List String) (v : JValue),
       extract .subsectors validTags (.jobj [("subsector", v)]) = .ok v) :=
  ⟨fun _ _ => rfl, fun _ _ => rfl, fun _ _ => rfl, fun _ _ => rfl⟩

/-- C10: a RateLimitError without the daily-quota signature is caught by
the classification loop as well: the handler neither re-raises nor logs
the daily-limit message, and the loop advances to the next backend, so
its value equals that of the remaining chain with one more attempt and
no added sleep; no rate-limit exception of any kind escapes
classification. -/
theorem c10_nondaily_ratelimit_swallowed :
    (∀ (cat : Category) (validTags : List String) (rest : List LLMOutcome),
       classify_openai_async cat validTags (.raiseErr (.rateLimit false) :: rest) =
         (classify_openai_async cat validTags rest).map
           (fun r => ⟨r.result, r.attempts + 1, r.sleep⟩)) ∧
    classifierHandle (.rateLimit false) = .ok false ∧
    classifierHandle (.rateLimit true) = .ok true := by
  refine ⟨?_, rfl, rfl⟩
  intro cat validTags rest
  have hstep : classifyStep cat validTags (.raiseErr (.rateLimit false)) = .advance 0 := rfl
  simp only [classify_openai_async, fallbackLoop_cons_advance hstep rest]
  cases hr : fallbackLoop (classifyStep cat validTags) rest <;> simp [Except.map, hr]

end SectorsNews
